import Mathlib

/-!
Shallow embedding of the tqm torrent queue manager's correctness-critical
core, translated from the Go source:

* `torrentfilemap` (file-overlap index, FOI): assoc list from declared file
  path to the set of torrent hashes claiming it, mirroring the Go
  `map[string]map[string]config.Torrent` whose inner map is used as a hash
  set.  The Go map never holds an empty inner map (`Remove` deletes the
  entry), and map keys are unique; key uniqueness is carried as the
  `NodupKeys` representation invariant.
* `hardlinkfilemap` (hardlink index, HLI): the same assoc-list shape keyed
  by OS file identity, with `os.Stat`/`LinkInfo` modelled as a `StatOracle`
  (`none` = stat or link-info failure).
* `config.Torrent` with the fields the embedded functions read, plus the
  `IsTrackerDown` / `IsUnregistered` oracles over tracker-status strings.
* the per-torrent bodies of `removeEligibleTorrents` (clean phases 1 and 2),
  the orphan scanner's per-path decision, `ShouldRetag`, and the expression
  checker `CheckTorrentSingleMatchWithReason`; external calls (client
  adapter, expr-lang evaluation, tracker API plugins) enter as explicit
  result parameters.
-/

/-- Substring test, modelling Go `strings.Contains hay needle`. -/
def strContains (hay needle : String) : Bool :=
  hay.data.tails.any (fun t => needle.data.isPrefixOf t)

/-- Replace the first occurrence of `old` in a character list by `new`,
modelling Go `strings.Replace(s, old, new, 1)`. -/
def replaceFirstChars (old new : List Char) : List Char → List Char
  | [] => if old.isEmpty then new else []
  | c :: rest =>
    if old.isPrefixOf (c :: rest) then new ++ (c :: rest).drop old.length
    else c :: replaceFirstChars old new rest

/-- Go `strings.Replace(s, old, new, 1)` on strings. -/
def replaceFirst (s old new : String) : String :=
  String.mk (replaceFirstChars old.data new.data s.data)

/-- Per-rune lower-casing, modelling Go `strings.ToLower` on ASCII. -/
def strToLower (s : String) : String :=
  String.mk (s.data.map Char.toLower)

/-- Snapshot of one torrent (`config.Torrent`), restricted to the fields the
embedded functions read. -/
structure Torrent where
  hash : String
  name : String
  files : List String
  tags : List String
  downloaded : Bool
  upLimit : Int
  trackerName : String
  trackerStatus : String
deriving DecidableEq, Repr

/-- The file-overlap index state: `torrentFileMap` as an association list
from file path to the set of claiming torrent hashes. -/
abbrev TFMap := List (String × Finset String)

/-- Key uniqueness, the Go map representation invariant. -/
abbrev NodupKeys (m : TFMap) : Prop := (m.map Prod.fst).Nodup

/-- Go map indexing `m[f]` returning the entry when present. -/
def tfLookup : TFMap → String → Option (Finset String)
  | [], _ => none
  | e :: rest, f => if e.1 = f then some e.2 else tfLookup rest f

/-- The set of hashes stored for path `f` (absent entry = empty set). -/
def hashSet (m : TFMap) (f : String) : Finset String :=
  (tfLookup m f).getD ∅

/-- One iteration of the `Add` loop body of `torrentfilemap`: insert `h`
into the entry for `f`, creating the entry when the path is new. -/
def addFileEntry (h f : String) : TFMap → TFMap
  | [] => [(f, {h})]
  | e :: rest =>
    if e.1 = f then (f, insert h e.2) :: rest
    else e :: addFileEntry h f rest

/-- One iteration of the `Remove` loop body of `torrentfilemap`: delete `h`
from the entry for `f`, and drop the entry once no hashes remain. -/
def removeFileEntry (h f : String) : TFMap → TFMap
  | [] => []
  | e :: rest =>
    if e.1 = f then
      if e.2.erase h = ∅ then rest else (f, e.2.erase h) :: rest
    else e :: removeFileEntry h f rest

/-- The `Add` loop over a torrent's files. -/
def addFiles (h : String) : List String → TFMap → TFMap
  | [], m => m
  | f :: fs, m => addFiles h fs (addFileEntry h f m)

/-- The `Remove` loop over a torrent's files. -/
def removeFiles (h : String) : List String → TFMap → TFMap
  | [], m => m
  | f :: fs, m => removeFiles h fs (removeFileEntry h f m)

/-- `TorrentFileMap.Add` (also the body of `addInternal` used by `New`). -/
def tfmAdd (m : TFMap) (t : Torrent) : TFMap :=
  addFiles t.hash t.files m

/-- `TorrentFileMap.Remove`. -/
def tfmRemove (m : TFMap) (t : Torrent) : TFMap :=
  removeFiles t.hash t.files m

/-- `torrentfilemap.New`: add every torrent into the empty map. -/
def tfmNew (torrents : List Torrent) : TFMap :=
  torrents.foldl tfmAdd []

/-- `TorrentFileMap.IsUnique`: no file of `t` is claimed by more than one
torrent. -/
def tfmIsUnique (m : TFMap) (t : Torrent) : Bool :=
  t.files.all (fun f => decide ((hashSet m f).card ≤ 1))

/-- `TorrentFileMap.NoInstances`: no file of `t` is claimed by any torrent. -/
def tfmNoInstances (m : TFMap) (t : Torrent) : Bool :=
  t.files.all (fun f => decide ((hashSet m f).card = 0))

/-- `TorrentFileMap.hasPathDirect`: some stored path contains `path`. -/
def hasPathDirect (m : TFMap) (path : String) : Bool :=
  m.any (fun e => strContains e.1 path)

/-- `TorrentFileMap.hasPathWithMapping`: some stored path, rewritten by some
`from -> to` mapping entry, contains `path`. -/
def hasPathWithMapping (m : TFMap) (path : String)
    (mapping : List (String × String)) : Bool :=
  m.any (fun e => mapping.any (fun q => strContains (replaceFirst e.1 q.1 q.2) path))

/-- `TorrentFileMap.HasPath` (the memoizing cache stores the value computed
here, so it is modelled by the pure function). -/
def tfmHasPath (m : TFMap) (path : String)
    (mapping : List (String × String)) : Bool :=
  if mapping.isEmpty then hasPathDirect m path
  else hasPathWithMapping m path mapping

/-- Result of `os.Stat` plus `LinkInfo` for one path: the file identity key
and the OS-reported link count, or `none` on failure. -/
abbrev StatOracle := String → Option (String × Nat)

/-- `HardlinkFileMap.considerPathMapping`: rewrite a declared path via the
first matching `from -> to` prefix mapping. -/
def considerPathMapping (pm : List (String × String)) (path : String) : String :=
  match pm.find? (fun q => q.1.isPrefixOf path) with
  | some q => replaceFirst path q.1 q.2
  | none => path

/-- `HardlinkFileMap.linkInfoByPath`: stat the path and extract the file
identity; any failure yields `none`. -/
def linkInfoByPath (stat : StatOracle) (path : String) : Option (String × Nat) :=
  stat path

/-- `HardlinkFileMap.AddByTorrent`: non-downloaded torrents contribute
nothing; unstattable files are skipped. -/
def hfmAddByTorrent (stat : StatOracle) (pm : List (String × String))
    (m : TFMap) (t : Torrent) : TFMap :=
  if !t.downloaded then m
  else t.files.foldl (fun m f =>
    let f2 := considerPathMapping pm f
    match linkInfoByPath stat f2 with
    | none => m
    | some (id, _) => addFileEntry f2 id m) m

/-- `HardlinkFileMap.RemoveByTorrent`. -/
def hfmRemoveByTorrent (stat : StatOracle) (pm : List (String × String))
    (m : TFMap) (t : Torrent) : TFMap :=
  if !t.downloaded then m
  else t.files.foldl (fun m f =>
    let f2 := considerPathMapping pm f
    match linkInfoByPath stat f2 with
    | none => m
    | some (id, _) => removeFileEntry f2 id m) m

/-- `HardlinkFileMap.countLinks`: number of paths recorded for the file's
identity and the OS link count, or `none` when the stat fails. -/
def hfmCountLinks (stat : StatOracle) (pm : List (String × String))
    (m : TFMap) (f : String) : Option (Nat × Nat) :=
  let f2 := considerPathMapping pm f
  match linkInfoByPath stat f2 with
  | none => none
  | some (id, nlink) => some ((hashSet m id).card, nlink)

/-- `HardlinkFileMap.IsTorrentUnique`: every file of a downloaded torrent
has at most one recorded path for its identity; a failed stat makes the
torrent non-unique. -/
def hfmIsTorrentUnique (stat : StatOracle) (pm : List (String × String))
    (m : TFMap) (t : Torrent) : Bool :=
  if !t.downloaded then true
  else t.files.all (fun f =>
    match hfmCountLinks stat pm m f with
    | none => false
    | some (c, _) => decide (c ≤ 1))

/-- `HardlinkFileMap.NoInstances`: no file of a downloaded torrent has any
recorded path for its identity; a failed stat counts as an instance. -/
def hfmNoInstances (stat : StatOracle) (pm : List (String × String))
    (m : TFMap) (t : Torrent) : Bool :=
  if !t.downloaded then true
  else t.files.all (fun f =>
    match hfmCountLinks stat pm m f with
    | none => false
    | some (c, _) => decide (c = 0))

/-- `config.trackerDownStatuses`: substrings of a tracker status that mark
the tracker as down. -/
def trackerDownStatuses : List String :=
  ["continue", "multiple choices", "not modified", "bad request",
   "unauthorized", "forbidden", "internal server error", "not implemented",
   "bad gateway", "service unavailable", "moved permanently",
   "moved temporarily", "(unknown http error)",
   "down", "maintenance", "tracker is down", "tracker unavailable",
   "truncated", "unreachable", "not working", "not responding", "timeout",
   "refused", "no connection", "cannot connect", "connection failed",
   "ssl error", "no data", "timed out", "temporarily disabled",
   "unresolvable", "host not found", "offline",
   "your request could not be processed, please try again later"]

/-- `config.defaultUnregisteredStatuses`: built-in substrings marking a
torrent as unregistered. -/
def defaultUnregisteredStatuses : List String :=
  ["complete season uploaded", "dead", "dupe",
   "i\x27m sorry dave, i can\x27t do that",
   "infohash not found", "internal available", "not exist",
   "not registered", "nuked", "pack is available", "packs are available",
   "problem with description", "problem with file", "problem with pack",
   "retitled", "season pack", "specifically banned",
   "torrent does not exist", "torrent existiert nicht",
   "torrent has been deleted", "torrent has been nuked",
   "torrent is not authorized for use on this tracker",
   "torrent is not found", "torrent nicht gefunden",
   "tracker nicht registriert", "torrent not found", "trump", "unknown",
   "unregistered", "upgraded", "uploaded"]

/-- `Torrent.IsTrackerDown`: the status is non-empty and its lower-casing
contains one of the down markers. -/
def isTrackerDown (t : Torrent) : Bool :=
  if t.trackerStatus = "" then false
  else trackerDownStatuses.any (fun v => strContains (strToLower t.trackerStatus) v)

/-- The pre-processing of `InitializeTrackerStatuses` applied to the default
list: trim and lower-case each status. -/
def defaultUnregisteredStatusesMap : List String :=
  defaultUnregisteredStatuses.map (fun s => strToLower s.trim)

/-- The pre-processing of `InitializeTrackerStatuses` applied to the
per-tracker overrides: keys and statuses trimmed and lower-cased. -/
def initEffectiveUnregisteredStatuses (perTracker : List (String × List String)) :
    List (String × List String) :=
  perTracker.map (fun e => (strToLower e.1.trim, e.2.map (fun s => strToLower s.trim)))

/-- Assoc-list lookup for the per-tracker status overrides. -/
def lookupStatuses : List (String × List String) → String → Option (List String)
  | [], _ => none
  | e :: rest, k => if e.1 = k then some e.2 else lookupStatuses rest k

/-- `Torrent.IsUnregistered`.  `overrides` is the configured
`per_tracker_unregistered_statuses` map before pre-processing; `api` is the
tracker API plugin's answer (`some b` when a plugin matched the tracker and
returned without error, `none` otherwise). -/
def isUnregistered (overrides : List (String × List String))
    (api : Option Bool) (t : Torrent) : Bool :=
  if isTrackerDown t then false
  else if t.trackerStatus = "" then false
  else
    let statusLower := strToLower t.trackerStatus
    let trackerLower := strToLower t.trackerName
    let statusList :=
      (lookupStatuses (initEffectiveUnregisteredStatuses overrides) trackerLower).getD
        defaultUnregisteredStatusesMap
    if statusList.any (fun s => strContains statusLower s) then true
    else
      match api with
      | some ur => ur
      | none => false

/-- Result of running one compiled expression (`expr.Run`) on a torrent:
a boolean value, a non-boolean value, or an evaluation error. -/
inductive ExprResult where
  | val (b : Bool)
  | nonBool
  | failed
deriving DecidableEq, Repr

/-- `expression.CheckTorrentSingleMatchWithReason`: walk the disjunction's
compiled programs (each paired with its source text); an evaluation error or
a non-boolean result aborts with an error, a true result returns that rule's
text, and a false result moves on. -/
def checkTorrentSingleMatchWithReason :
    List (ExprResult × String) → Except Unit (Bool × String)
  | [] => .ok (false, "")
  | (r, text) :: rest =>
    match r with
    | .failed => .error ()
    | .nonBool => .error ()
    | .val true => .ok (true, text)
    | .val false => checkTorrentSingleMatchWithReason rest

/-- The filter's `DeleteData` default: delete data unless the filter sets it
to false (`deleteData := true; if filter.DeleteData != nil {...}`). -/
def effectiveDeleteData : Option Bool → Bool
  | none => true
  | some b => b

/-- The `localDeleteData` computation inside `removeTorrent`: non-unique
torrents that are not hardlinked (pure file overlap) always keep their
data. -/
def localDeleteData (dd : Bool) (isUnique isHardlinked : Bool) : Bool :=
  if !isUnique && !isHardlinked then false else dd

/-- The sequential `isUnique` / `isHardlinked` flag updates of
`removeEligibleTorrents`: the file-overlap check runs first, the hardlink
check second and overwrites the flags when it fires. -/
def classifyUniqueness (tfmUnique hfmUnique : Bool) : Bool × Bool :=
  let flags := (true, false)
  let flags := if !tfmUnique then (false, false) else flags
  let flags := if !hfmUnique then (false, true) else flags
  flags

/-- Outcome of the phase-1 loop body of `removeEligibleTorrents` for one
torrent.  `removed` records the arguments handed to the `removeTorrent`
helper: the matching rule text, the `deleteData` flag passed to the client
adapter's `RemoveTorrent`, and the `isHardlinked` / `isUnique` /
`isNotUniqueUnregistered` flags. -/
inductive P1Decision where
  | droppedIgnoreError
  | ignored
  | droppedRemoveError
  | notRemoved
  | removed (reason : String) (deleteData : Bool)
      (isHardlinked isUnique isNotUniqueUnregistered : Bool)
  | candidateHardlinked (reason : String)
  | candidateFileOverlap (reason : String)
deriving DecidableEq, Repr

/-- The phase-1 loop body of `removeEligibleTorrents` for one torrent.
`dd` is the filter's `DeleteData`; `bypass` is
`config.Config.BypassIgnoreIfUnregistered`; `ignoreRes` and `removeRes` are
the results of `ShouldIgnore` and `ShouldRemoveWithReason`; `unregistered`
is the (cached, pure within a run) value of `t.IsUnregistered`. -/
def phase1Decision (dd : Option Bool) (bypass : Bool)
    (ignoreRes : Except Unit Bool) (removeRes : Except Unit (Bool × String))
    (unregistered : Bool) (tfm : TFMap) (stat : StatOracle)
    (pm : List (String × String)) (hfm : TFMap) (t : Torrent) : P1Decision :=
  match ignoreRes with
  | .error _ => .droppedIgnoreError
  | .ok ignore =>
    if ignore && !(bypass && unregistered) then .ignored
    else
      match removeRes with
      | .error _ => .droppedRemoveError
      | .ok (rm, reason) =>
        if !rm then .notRemoved
        else
          let flags := classifyUniqueness (tfmIsUnique tfm t)
            (hfmIsTorrentUnique stat pm hfm t)
          let isUnique := flags.1
          let isHardlinked := flags.2
          if !isUnique then
            if unregistered then
              .removed reason
                (localDeleteData (effectiveDeleteData dd) isUnique isHardlinked)
                isHardlinked isUnique true
            else if isHardlinked then .candidateHardlinked reason
            else .candidateFileOverlap reason
          else
            .removed reason
              (localDeleteData (effectiveDeleteData dd) true false) false true false

/-- Outcome of the phase-2 re-test of `removeEligibleTorrents` for one
candidate. -/
inductive P2Decision where
  | leftAlone
  | removed (reason : String) (deleteData : Bool)
deriving DecidableEq, Repr

/-- The phase-2 loop body of `removeEligibleTorrents` for one candidate,
run against the indexes after every candidate was virtually removed.
`hardlinkedBucket` is true for `hardlinkedCandidates` (whose `removeTorrent`
call passes `isHardlinked = true`) and false for `fileOverlapCandidates`
(`isHardlinked = false`); both buckets pass `isUnique = false`. -/
def phase2Decision (dd : Option Bool) (tfm : TFMap) (stat : StatOracle)
    (pm : List (String × String)) (hfm : TFMap) (hardlinkedBucket : Bool)
    (t : Torrent) (reason : String) : P2Decision :=
  if tfmNoInstances tfm t && hfmNoInstances stat pm hfm t then
    .removed reason (localDeleteData (effectiveDeleteData dd) false hardlinkedBucket)
  else .leftAlone

/-- The `isIgnoredPath` helper of the orphan command: prefix match against
the filter's `Orphan.IgnorePaths`. -/
def isIgnoredPath (path : String) (ignoreList : List String) : Bool :=
  ignoreList.any (fun ignore => ignore.isPrefixOf path)

/-- `10 * time.Minute` in nanoseconds, the orphan scanner's default grace
period. -/
def defaultGracePeriod : Int := 600000000000

/-- The grace-period selection in `orphanCmd`: the configured
`Orphan.GracePeriod` only replaces the 10-minute default when positive. -/
def effectiveGracePeriod (configured : Int) : Int :=
  if configured > 0 then configured else defaultGracePeriod

/-- Outcome of the orphan scanner's per-file worker body. -/
inductive OrphanFileAction where
  | keepClaimed
  | keepIgnored
  | keepStatFailed
  | keepGrace
  | removeFile
deriving DecidableEq, Repr

/-- The per-file worker body of `orphanCmd`: skip paths claimed by the
file-overlap index, ignored paths, unstattable files, and files modified
within the grace period; delete the rest.  `mtimeSince` is
`time.Since(fileInfo.ModTime())` in nanoseconds, `none` when the stat
failed. -/
def orphanFileDecision (m : TFMap) (mapping : List (String × String))
    (ignoreList : List String) (grace : Int) (mtimeSince : Option Int)
    (path : String) : OrphanFileAction :=
  if tfmHasPath m path mapping then .keepClaimed
  else if isIgnoredPath path ignoreList then .keepIgnored
  else
    match mtimeSince with
    | none => .keepStatFailed
    | some since => if since < grace then .keepGrace else .removeFile

/-- The orphan folder pre-filter of `orphanCmd`: only folders neither
claimed by the file-overlap index nor ignored become removal candidates. -/
def orphanFolderCandidates (m : TFMap) (mapping : List (String × String))
    (ignoreList : List String) (folders : List String) : List String :=
  folders.filter (fun p => !tfmHasPath m p mapping && !isIgnoredPath p ignoreList)

/-- One configured `Tag` rule (name, mode, optional `uploadKb`); the rule's
`Update` programs evaluate externally, so their conjunction enters
`shouldRetag` as an `Except`-wrapped boolean. -/
structure TagRule where
  name : String
  mode : String
  uploadKb : Option Int
deriving DecidableEq, Repr

/-- `client.RetagInfo` (`Add` / `Remove` tag sets in rule order, optional
upload-limit change in KiB/s). -/
structure RetagInfo where
  add : List String
  remove : List String
  uploadKb : Option Int
deriving DecidableEq, Repr

/-- `sliceutils.StringSliceContains` (case-insensitive comparison modelled
by lower-casing both sides). -/
def stringSliceContains (slice : List String) (s : String)
    (caseInsensitive : Bool) : Bool :=
  slice.any (fun v =>
    if caseInsensitive then decide (strToLower v = strToLower s)
    else decide (v = s))

/-- The loop of `QBittorrent.ShouldRetag` over the tag rules.  Each rule is
paired with the result of `CheckTorrentAllMatch` on its `Update` programs.
State: accumulated add / remove tags, the pending upload limit, and the
`uploadLimitSet` latch.  The current limit is compared in KiB/s using Go's
truncated integer division `t.UpLimit / 1024` (`Int.tdiv`). -/
def shouldRetagLoop (tags : List String) (upLimit : Int) :
    List (TagRule × Except Unit Bool) → List String → List String →
    Option Int → Bool → Except Unit RetagInfo
  | [], addAcc, removeAcc, upKb, _ => .ok ⟨addAcc, removeAcc, upKb⟩
  | (rule, res) :: rest, addAcc, removeAcc, upKb, uploadLimitSet =>
    match res with
    | .error _ => .error ()
    | .ok mtch =>
      let containTag := stringSliceContains tags rule.name false
      let removeAcc2 :=
        if containTag && !mtch && (decide (rule.mode = "remove") || decide (rule.mode = "full"))
        then removeAcc ++ [rule.name] else removeAcc
      let addAcc2 :=
        if !containTag && mtch && (decide (rule.mode = "add") || decide (rule.mode = "full"))
        then addAcc ++ [rule.name] else addAcc
      match rule.uploadKb with
      | some k =>
        if mtch && !uploadLimitSet then
          if Int.tdiv upLimit 1024 ≠ k then
            shouldRetagLoop tags upLimit rest addAcc2 removeAcc2 (some k) true
          else shouldRetagLoop tags upLimit rest addAcc2 removeAcc2 upKb uploadLimitSet
        else shouldRetagLoop tags upLimit rest addAcc2 removeAcc2 upKb uploadLimitSet
      | none => shouldRetagLoop tags upLimit rest addAcc2 removeAcc2 upKb uploadLimitSet

/-- `QBittorrent.ShouldRetag`. -/
def shouldRetag (rules : List (TagRule × Except Unit Bool)) (t : Torrent) :
    Except Unit RetagInfo :=
  shouldRetagLoop t.tags t.upLimit rules [] [] none false

/-- The upload-limit unit conversion in `retagEligibleTorrents`:
`limitBytes := uploadKb * 1024`, overridden to `-1` (unlimited) when the
scheduled limit is `-1`; this is the value `SetUploadLimit` receives. -/
def uploadLimitBytes (kb : Int) : Int :=
  if kb = -1 then -1 else kb * 1024

/-! Supporting lemmas about the file-overlap index. -/

theorem tfLookup_eq_none_of_not_mem_keys {m : TFMap} {f : String}
    (h : f ∉ m.map Prod.fst) : tfLookup m f = none := by
  induction m with
  | nil => rfl
  | cons e rest ih =>
    simp only [List.map_cons, List.mem_cons] at h
    push_neg at h
    simp [tfLookup, Ne.symm h.1, ih h.2]

theorem mem_keys_addFileEntry {m : TFMap} {h f x : String} :
    x ∈ (addFileEntry h f m).map Prod.fst ↔ x = f ∨ x ∈ m.map Prod.fst := by
  induction m with
  | nil => simp [addFileEntry]
  | cons e rest ih =>
    by_cases he : e.1 = f
    · simp only [addFileEntry, he, if_true, List.map_cons, List.mem_cons]
      rw [← he]
      tauto
    · simp only [addFileEntry, he, if_false, List.map_cons, List.mem_cons, ih]
      tauto

theorem mem_keys_removeFileEntry {m : TFMap} {h f x : String}
    (hx : x ∈ (removeFileEntry h f m).map Prod.fst) : x ∈ m.map Prod.fst := by
  induction m with
  | nil => simp [removeFileEntry] at hx
  | cons e rest ih =>
    by_cases he : e.1 = f
    · by_cases hz : e.2.erase h = ∅
      · simp only [removeFileEntry, he, if_true, hz] at hx
        simp [hx]
      · simp only [removeFileEntry, he, if_true, hz, if_false, List.map_cons,
          List.mem_cons] at hx
        rcases hx with hx | hx
        · simp [hx, ← he]
        · simp [hx]
    · simp only [removeFileEntry, he, if_false, List.map_cons,
        List.mem_cons] at hx
      rcases hx with hx | hx
      · simp [hx]
      · simp [ih hx]

theorem nodupKeys_addFileEntry {m : TFMap} {h f : String}
    (hm : NodupKeys m) : NodupKeys (addFileEntry h f m) := by
  induction m with
  | nil => simp [addFileEntry, NodupKeys]
  | cons e rest ih =>
    simp only [NodupKeys, List.map_cons, List.nodup_cons] at hm
    by_cases he : e.1 = f
    · simp only [addFileEntry, he, if_true, NodupKeys, List.map_cons,
        List.nodup_cons]
      exact ⟨he ▸ hm.1, hm.2⟩
    · have h2 := ih hm.2
      simp only [addFileEntry, he, if_false, NodupKeys, List.map_cons,
        List.nodup_cons]
      refine ⟨fun hx => ?_, h2⟩
      rcases mem_keys_addFileEntry.mp hx with h1 | h1
      · exact he h1
      · exact hm.1 h1

theorem nodupKeys_removeFileEntry {m : TFMap} {h f : String}
    (hm : NodupKeys m) : NodupKeys (removeFileEntry h f m) := by
  induction m with
  | nil => simp [removeFileEntry, NodupKeys]
  | cons e rest ih =>
    simp only [NodupKeys, List.map_cons, List.nodup_cons] at hm
    by_cases he : e.1 = f
    · by_cases hz : e.2.erase h = ∅
      · simpa [removeFileEntry, he, hz, NodupKeys] using hm.2
      · simp only [removeFileEntry, he, if_true, hz, if_false, NodupKeys,
          List.map_cons, List.nodup_cons]
        exact ⟨he ▸ hm.1, hm.2⟩
    · have h2 := ih hm.2
      simp only [removeFileEntry, he, if_false, NodupKeys, List.map_cons,
        List.nodup_cons]
      exact ⟨fun hx => hm.1 (mem_keys_removeFileEntry hx), h2⟩

theorem hashSet_addFileEntry (m : TFMap) (h f p : String) :
    hashSet (addFileEntry h f m) p =
      if p = f then insert h (hashSet m f) else hashSet m p := by
  induction m with
  | nil =>
    by_cases hp : p = f
    · simp [addFileEntry, hashSet, tfLookup, hp]
    · have hfp : ¬(f = p) := fun hx => hp hx.symm
      simp [addFileEntry, hashSet, tfLookup, hp, hfp]
  | cons e rest ih =>
    by_cases he : e.1 = f
    · subst he
      by_cases hp : p = e.1
      · simp [addFileEntry, hashSet, tfLookup, hp]
      · have hfp : ¬(e.1 = p) := fun hx => hp hx.symm
        simp [addFileEntry, hashSet, tfLookup, hp, hfp]
    · by_cases hep : e.1 = p
      · have hpf : ¬(p = f) := fun hx => he (hep.trans hx)
        simp [addFileEntry, hashSet, tfLookup, he, hep, hpf]
      · simpa [addFileEntry, hashSet, tfLookup, he, hep] using ih

theorem hashSet_removeFileEntry (m : TFMap) (h f p : String)
    (hm : NodupKeys m) :
    hashSet (removeFileEntry h f m) p =
      if p = f then (hashSet m f).erase h else hashSet m p := by
  induction m with
  | nil =>
    by_cases hp : p = f <;> simp [removeFileEntry, hashSet, tfLookup, hp]
  | cons e rest ih =>
    simp only [NodupKeys, List.map_cons, List.nodup_cons] at hm
    by_cases he : e.1 = f
    · subst he
      by_cases hz : e.2.erase h = ∅
      · by_cases hp : p = e.1
        · have hnone : tfLookup rest e.1 = none :=
            tfLookup_eq_none_of_not_mem_keys hm.1
          simp [removeFileEntry, hz, hashSet, tfLookup, hp, hnone]
        · have hfp : ¬(e.1 = p) := fun hx => hp hx.symm
          simp [removeFileEntry, hz, hashSet, tfLookup, hp, hfp]
      · by_cases hp : p = e.1
        · simp [removeFileEntry, hz, hashSet, tfLookup, hp]
        · have hfp : ¬(e.1 = p) := fun hx => hp hx.symm
          simp [removeFileEntry, hz, hashSet, tfLookup, hp, hfp]
    · by_cases hep : e.1 = p
      · have hpf : ¬(p = f) := fun hx => he (hep.trans hx)
        simp [removeFileEntry, hashSet, tfLookup, he, hep, hpf]
      · simpa [removeFileEntry, hashSet, tfLookup, he, hep] using ih hm.2

theorem nodupKeys_addFiles {h : String} (fs : List String) {m : TFMap}
    (hm : NodupKeys m) : NodupKeys (addFiles h fs m) := by
  induction fs generalizing m with
  | nil => exact hm
  | cons f fs ih => exact ih (nodupKeys_addFileEntry hm)

theorem nodupKeys_removeFiles {h : String} (fs : List String) {m : TFMap}
    (hm : NodupKeys m) : NodupKeys (removeFiles h fs m) := by
  induction fs generalizing m with
  | nil => exact hm
  | cons f fs ih => exact ih (nodupKeys_removeFileEntry hm)

theorem hashSet_addFiles (h : String) (fs : List String) (m : TFMap)
    (p : String) :
    hashSet (addFiles h fs m) p =
      if p ∈ fs then insert h (hashSet m p) else hashSet m p := by
  induction fs generalizing m with
  | nil => simp [addFiles]
  | cons f fs ih =>
    simp only [addFiles]
    rw [ih, hashSet_addFileEntry]
    by_cases hp : p = f
    · subst hp
      by_cases hfs : p ∈ fs <;> simp [hfs, Finset.insert_idem]
    · by_cases hfs : p ∈ fs <;> simp [hfs, hp]

theorem hashSet_removeFiles (h : String) (fs : List String) (m : TFMap)
    (p : String) (hm : NodupKeys m) :
    hashSet (removeFiles h fs m) p =
      if p ∈ fs then (hashSet m p).erase h else hashSet m p := by
  induction fs generalizing m with
  | nil => simp [removeFiles]
  | cons f fs ih =>
    simp only [removeFiles]
    rw [ih _ (nodupKeys_removeFileEntry hm), hashSet_removeFileEntry m h f p hm]
    by_cases hp : p = f
    · subst hp
      by_cases hfs : p ∈ fs <;> simp [hfs, Finset.erase_idem]
    · by_cases hfs : p ∈ fs <;> simp [hfs, hp]

theorem nodupKeys_tfmAdd {m : TFMap} (t : Torrent) (hm : NodupKeys m) :
    NodupKeys (tfmAdd m t) :=
  nodupKeys_addFiles t.files hm

theorem hashSet_tfmAdd (m : TFMap) (t : Torrent) (p : String) :
    hashSet (tfmAdd m t) p =
      if p ∈ t.files then insert t.hash (hashSet m p) else hashSet m p :=
  hashSet_addFiles t.hash t.files m p

theorem hashSet_tfmRemove (m : TFMap) (t : Torrent) (p : String)
    (hm : NodupKeys m) :
    hashSet (tfmRemove m t) p =
      if p ∈ t.files then (hashSet m p).erase t.hash else hashSet m p :=
  hashSet_removeFiles t.hash t.files m p hm

/-- Booleans: a list `all` is false as soon as one member fails the
predicate. -/
theorem list_all_eq_false_of_mem {α : Type} {l : List α} {q : α → Bool}
    {x : α} (hx : x ∈ l) (hq : q x = false) : l.all q = false := by
  cases hall : l.all q with
  | false => rfl
  | true => exact absurd (List.all_eq_true.mp hall x hx) (by simp [hq])

/-- The sequential flag updates of `removeEligibleTorrents` compute
`isUnique = tfmUnique && hfmUnique` and `isHardlinked = !hfmUnique`: the
hardlink check runs last and overwrites the file-overlap classification. -/
theorem classifyUniqueness_eq (tU hU : Bool) :
    classifyUniqueness tU hU = (tU && hU, !hU) := by
  cases tU <;> cases hU <;> rfl


/-! Claim theorems. -/

/-- C1: Clean phase-1 safety — for a torrent that passed the ignore check
and matched the Remove disjunction, if it is non-unique under the
file-overlap index or under the hardlink index and it is not unregistered,
the phase-1 loop body never reaches the `removeTorrent` helper: the torrent
is either skipped by the ignore filter or placed into one of the two
candidate buckets for the second pass. -/
theorem clean_phase1_nonunique_only_candidates
    (dd : Option Bool) (bypass ig : Bool) (reason : String) (tfm : TFMap)
    (stat : StatOracle) (pm : List (String × String)) (hfm : TFMap)
    (t : Torrent)
    (hnu : tfmIsUnique tfm t = false ∨ hfmIsTorrentUnique stat pm hfm t = false) :
    phase1Decision dd bypass (.ok ig) (.ok (true, reason)) false tfm stat pm hfm t
      = .ignored ∨
    phase1Decision dd bypass (.ok ig) (.ok (true, reason)) false tfm stat pm hfm t
      = .candidateHardlinked reason ∨
    phase1Decision dd bypass (.ok ig) (.ok (true, reason)) false tfm stat pm hfm t
      = .candidateFileOverlap reason := by
  cases ig
  · right
    cases hb : hfmIsTorrentUnique stat pm hfm t
    · left
      simp [phase1Decision, classifyUniqueness_eq, hb]
    · right
      rcases hnu with h | h
      · simp [phase1Decision, classifyUniqueness_eq, h, hb]
      · exact absurd h (by simp [hb])
  · left
    simp [phase1Decision]

/-- C1 witness: a concrete non-unique, non-unregistered torrent matching
Remove lands in a candidate bucket. -/
theorem clean_phase1_nonunique_only_candidates_witness :
    (tfmIsUnique [("f", {"a", "b"})] ⟨"a", "n", ["f"], [], true, 0, "", ""⟩ = false ∨
      hfmIsTorrentUnique (fun _ => none) [] [] ⟨"a", "n", ["f"], [], true, 0, "", ""⟩ = false) ∧
    (phase1Decision none false (.ok false) (.ok (true, "r")) false
        [("f", {"a", "b"})] (fun _ => none) [] [] ⟨"a", "n", ["f"], [], true, 0, "", ""⟩
      = .ignored ∨
     phase1Decision none false (.ok false) (.ok (true, "r")) false
        [("f", {"a", "b"})] (fun _ => none) [] [] ⟨"a", "n", ["f"], [], true, 0, "", ""⟩
      = .candidateHardlinked "r" ∨
     phase1Decision none false (.ok false) (.ok (true, "r")) false
        [("f", {"a", "b"})] (fun _ => none) [] [] ⟨"a", "n", ["f"], [], true, 0, "", ""⟩
      = .candidateFileOverlap "r") :=
  ⟨Or.inl (by decide),
    clean_phase1_nonunique_only_candidates none false false "r"
      [("f", {"a", "b"})] (fun _ => none) [] [] ⟨"a", "n", ["f"], [], true, 0, "", ""⟩
      (Or.inl (by decide))⟩

/-- C2: Keep-data policy — a clean removal of a torrent classified as
non-unique by file overlap and not hardlinked always hands
`deleteData = false` to the adapter, whether it is force-removed in phase 1
as unregistered (file-overlap class: FOI non-unique, HLI unique) or removed
in phase 2 from the file-overlap candidate bucket, regardless of the
filter's `DeleteData`; hardlinked non-unique removals use the filter's
`DeleteData`, which defaults to true. -/
theorem clean_keep_data_policy
    (dd : Option Bool) (bypass : Bool) (reason : String) (tfm : TFMap)
    (stat : StatOracle) (pm : List (String × String)) (hfm : TFMap)
    (t : Torrent) :
    (tfmIsUnique tfm t = false → hfmIsTorrentUnique stat pm hfm t = true →
      phase1Decision dd bypass (.ok false) (.ok (true, reason)) true tfm stat pm hfm t
        = .removed reason false false false true) ∧
    (hfmIsTorrentUnique stat pm hfm t = false →
      phase1Decision dd bypass (.ok false) (.ok (true, reason)) true tfm stat pm hfm t
        = .removed reason (effectiveDeleteData dd) true false true) ∧
    (tfmNoInstances tfm t = true → hfmNoInstances stat pm hfm t = true →
      phase2Decision dd tfm stat pm hfm false t reason = .removed reason false ∧
      phase2Decision dd tfm stat pm hfm true t reason
        = .removed reason (effectiveDeleteData dd)) ∧
    effectiveDeleteData none = true := by
  refine ⟨fun h1 h2 => ?_, fun h2 => ?_, fun h1 h2 => ⟨?_, ?_⟩, rfl⟩
  · simp [phase1Decision, classifyUniqueness_eq, h1, h2, localDeleteData]
  · simp [phase1Decision, classifyUniqueness_eq, h2, localDeleteData]
  · simp [phase2Decision, h1, h2, localDeleteData]
  · simp [phase2Decision, h1, h2, localDeleteData]

/-- C2 witness: concrete instances of all three removal contexts. -/
theorem clean_keep_data_policy_witness :
    (tfmIsUnique [("f", {"a", "b"})] ⟨"a", "n", ["f"], [], true, 0, "", ""⟩ = false ∧
     hfmIsTorrentUnique (fun p => some (p, 1)) [] [("f", {"f"})]
        ⟨"a", "n", ["f"], [], true, 0, "", ""⟩ = true) ∧
    phase1Decision (some true) false (.ok false) (.ok (true, "r")) true
        [("f", {"a", "b"})] (fun p => some (p, 1)) [] [("f", {"f"})]
        ⟨"a", "n", ["f"], [], true, 0, "", ""⟩
      = .removed "r" false false false true :=
  ⟨⟨by decide, by decide⟩,
    (clean_keep_data_policy (some true) false "r" [("f", {"a", "b"})]
        (fun p => some (p, 1)) [] [("f", {"f"})]
        ⟨"a", "n", ["f"], [], true, 0, "", ""⟩).1 (by decide) (by decide)⟩

/-- C3 counterexample: a torrent non-unique under both indexes is placed in
the hardlinked candidate bucket (`isHardlinked = true`) even though
`FOI.IsUnique` is false, refuting the claim that the flag is false whenever
the file-overlap index reports non-unique. -/
theorem overlap_priority_counterexample :
    tfmIsUnique [("f", {"a", "b"})] ⟨"a", "n", ["f"], [], true, 0, "", ""⟩ = false ∧
    hfmIsTorrentUnique (fun _ => some ("id1", 2)) [] [("id1", {"f", "g"})]
        ⟨"a", "n", ["f"], [], true, 0, "", ""⟩ = false ∧
    phase1Decision none false (.ok false) (.ok (true, "r")) false
        [("f", {"a", "b"})] (fun _ => some ("id1", 2)) [] [("id1", {"f", "g"})]
        ⟨"a", "n", ["f"], [], true, 0, "", ""⟩
      = .candidateHardlinked "r" := by
  refine ⟨by decide, by decide, by decide⟩

/-- C3 amended: the `isHardlinked` flag equals the negation of the hardlink
index verdict — the hardlink check runs second and overwrites the
file-overlap classification, so when a torrent is non-unique under both
indexes the hardlink classification wins and the torrent goes to the
hardlinked candidate bucket. -/
theorem hardlink_priority_amended
    (dd : Option Bool) (bypass : Bool) (reason : String) (tfm : TFMap)
    (stat : StatOracle) (pm : List (String × String)) (hfm : TFMap)
    (t : Torrent) :
    (∀ tU hU : Bool, (classifyUniqueness tU hU).2 = !hU) ∧
    (tfmIsUnique tfm t = false → hfmIsTorrentUnique stat pm hfm t = false →
      phase1Decision dd bypass (.ok false) (.ok (true, reason)) false tfm stat pm hfm t
        = .candidateHardlinked reason) := by
  refine ⟨fun tU hU => by rw [classifyUniqueness_eq], fun h1 h2 => ?_⟩
  simp [phase1Decision, classifyUniqueness_eq, h1, h2]

/-- C3 amended witness: the same both-non-unique instance goes to the
hardlinked bucket. -/
theorem hardlink_priority_amended_witness :
    (tfmIsUnique [("f", {"a", "b"})] ⟨"b", "n", ["f"], [], true, 0, "", ""⟩ = false ∧
     hfmIsTorrentUnique (fun _ => some ("id1", 2)) [] [("id1", {"f", "g"})]
        ⟨"b", "n", ["f"], [], true, 0, "", ""⟩ = false) ∧
    phase1Decision none false (.ok false) (.ok (true, "s")) false
        [("f", {"a", "b"})] (fun _ => some ("id1", 2)) [] [("id1", {"f", "g"})]
        ⟨"b", "n", ["f"], [], true, 0, "", ""⟩
      = .candidateHardlinked "s" :=
  ⟨⟨by decide, by decide⟩,
    (hardlink_priority_amended none false "s" [("f", {"a", "b"})]
        (fun _ => some ("id1", 2)) [] [("id1", {"f", "g"})]
        ⟨"b", "n", ["f"], [], true, 0, "", ""⟩).2 (by decide) (by decide)⟩

/-- C4: Oracle down-state safety — whenever `IsTrackerDown` reports true,
`IsUnregistered` returns false, for every override configuration and every
tracker API plugin answer. -/
theorem tracker_down_never_unregistered
    (overrides : List (String × List String)) (api : Option Bool)
    (t : Torrent) (h : isTrackerDown t = true) :
    isUnregistered overrides api t = false := by
  simp [isUnregistered, h]

/-- C4 witness: a torrent whose status marks the tracker down is not
unregistered, even with an affirmative API answer. -/
theorem tracker_down_never_unregistered_witness :
    isTrackerDown ⟨"h", "n", [], [], true, 0, "t", "tracker is down"⟩ = true ∧
    isUnregistered [] (some true) ⟨"h", "n", [], [], true, 0, "t", "tracker is down"⟩
      = false :=
  ⟨by decide,
    tracker_down_never_unregistered [] (some true)
      ⟨"h", "n", [], [], true, 0, "t", "tracker is down"⟩ (by decide)⟩

/-- C5: Orphan claimed-path safety — the per-file worker only reaches the
delete step for paths the file-overlap index does not claim, and every
folder in the removal-candidate list is unclaimed as well. -/
theorem orphan_never_deletes_claimed_path
    (m : TFMap) (mapping : List (String × String)) (ignoreList : List String)
    (grace : Int) (mtimeSince : Option Int) (path : String)
    (folders : List String) :
    (orphanFileDecision m mapping ignoreList grace mtimeSince path
        = .removeFile → tfmHasPath m path mapping = false) ∧
    (∀ p ∈ orphanFolderCandidates m mapping ignoreList folders,
      tfmHasPath m p mapping = false) := by
  constructor
  · intro hdel
    by_contra hclaim
    rw [Bool.not_eq_false] at hclaim
    simp [orphanFileDecision, hclaim] at hdel
  · intro p hp
    have := (List.mem_filter.mp hp).2
    simp only [Bool.and_eq_true, Bool.not_eq_true'] at this
    exact this.1

/-- C5 witness: an unclaimed out-of-grace file is deleted and is indeed
unclaimed; a concrete candidate folder is unclaimed. -/
theorem orphan_never_deletes_claimed_path_witness :
    orphanFileDecision [("/d/show/ep1.mkv", {"h"})] [] [] defaultGracePeriod
        (some 700000000000) "/d/stray.bin" = .removeFile ∧
    tfmHasPath [("/d/show/ep1.mkv", {"h"})] "/d/stray.bin" [] = false ∧
    tfmHasPath [("/d/show/ep1.mkv", {"h"})] "/d/strayDir" [] = false :=
  ⟨by decide,
    (orphan_never_deletes_claimed_path [("/d/show/ep1.mkv", {"h"})] [] []
        defaultGracePeriod (some 700000000000) "/d/stray.bin"
        ["/d/strayDir"]).1 (by decide),
    (orphan_never_deletes_claimed_path [("/d/show/ep1.mkv", {"h"})] [] []
        defaultGracePeriod (some 700000000000) "/d/stray.bin"
        ["/d/strayDir"]).2 "/d/strayDir" (by decide)⟩

/-- C6 counterexample: an evaluation error on the first rule of a
disjunction aborts the whole check with an error instead of evaluating the
remaining rules — the second rule matches, yet the result is not a match. -/
theorem eval_error_poisons_disjunction :
    checkTorrentSingleMatchWithReason [(.failed, "a"), (.val true, "b")]
      = .error () ∧
    checkTorrentSingleMatchWithReason [(.failed, "a"), (.val true, "b")]
      ≠ .ok (true, "b") :=
  ⟨rfl, fun h => Except.noConfusion h⟩

/-- C6 amended: an evaluation error (or non-boolean result) on any rule
aborts evaluation of the whole Ignore or Remove disjunction with an error;
`removeEligibleTorrents` then drops that torrent from further operations
this run (per-torrent, not per-rule, isolation).  The remaining rules are
not consulted. -/
theorem eval_error_aborts_filter
    (s : String) (rest : List (ExprResult × String)) (dd : Option Bool)
    (bypass unreg : Bool) (rr : Except Unit (Bool × String)) (tfm : TFMap)
    (stat : StatOracle) (pm : List (String × String)) (hfm : TFMap)
    (t : Torrent) :
    checkTorrentSingleMatchWithReason ((.failed, s) :: rest) = .error () ∧
    checkTorrentSingleMatchWithReason ((.nonBool, s) :: rest) = .error () ∧
    phase1Decision dd bypass (.ok false) (.error ()) unreg tfm stat pm hfm t
      = .droppedRemoveError ∧
    phase1Decision dd bypass (.error ()) rr unreg tfm stat pm hfm t
      = .droppedIgnoreError :=
  ⟨rfl, rfl, by simp [phase1Decision], rfl⟩

/-- C7 counterexample: with `Orphan.GracePeriod = 0` the scanner still
checks modification times — a 30-second-old orphan file is kept by the
10-minute default grace period instead of being deleted. -/
theorem zero_grace_counterexample :
    orphanFileDecision [] [] [] (effectiveGracePeriod 0) (some 30000000000)
        "/d/tmp.partial" = .keepGrace ∧
    orphanFileDecision [] [] [] (effectiveGracePeriod 0) (some 30000000000)
        "/d/tmp.partial" ≠ .removeFile := by
  refine ⟨by decide, by decide⟩

/-- C7 amended: a non-positive configured grace period falls back to the
10-minute default, so the modification-time check always runs: an unclaimed,
unignored orphan file is kept when younger than 10 minutes and deleted once
at least 10 minutes old. -/
theorem zero_grace_defaults_amended
    (c : Int) (m : TFMap) (ignoreList : List String) (path : String)
    (since : Int) (hclaim : tfmHasPath m path [] = false)
    (hign : isIgnoredPath path ignoreList = false) :
    (0 < c → effectiveGracePeriod c = c) ∧
    (c ≤ 0 → effectiveGracePeriod c = defaultGracePeriod) ∧
    (since < defaultGracePeriod →
      orphanFileDecision m [] ignoreList (effectiveGracePeriod 0) (some since) path
        = .keepGrace) ∧
    (defaultGracePeriod ≤ since →
      orphanFileDecision m [] ignoreList (effectiveGracePeriod 0) (some since) path
        = .removeFile) := by
  refine ⟨fun hc => by simp [effectiveGracePeriod, hc], fun hc => ?_,
    fun hs => ?_, fun hs => ?_⟩
  · have : ¬(0 : Int) < c := not_lt.mpr hc
    simp [effectiveGracePeriod, this]
  · simp [orphanFileDecision, hclaim, hign, effectiveGracePeriod, hs]
  · have : ¬since < defaultGracePeriod := not_lt.mpr hs
    simp [orphanFileDecision, hclaim, hign, effectiveGracePeriod, this]

/-- C7 amended witness: grace 0, a 30-second-old file is kept, a
700-second-old file is deleted. -/
theorem zero_grace_defaults_amended_witness :
    (tfmHasPath [] "/d/tmp.partial" [] = false ∧
     isIgnoredPath "/d/tmp.partial" [] = false) ∧
    orphanFileDecision [] [] [] (effectiveGracePeriod 0) (some 30000000000)
        "/d/tmp.partial" = .keepGrace ∧
    orphanFileDecision [] [] [] (effectiveGracePeriod 0) (some 700000000000)
        "/d/tmp.partial" = .removeFile :=
  ⟨⟨by decide, by decide⟩,
    (zero_grace_defaults_amended 0 [] [] "/d/tmp.partial" 30000000000
        (by decide) (by decide)).2.2.1 (by decide),
    (zero_grace_defaults_amended 0 [] [] "/d/tmp.partial" 700000000000
        (by decide) (by decide)).2.2.2 (by decide)⟩

/-- C8 counterexample: a matching Tag rule with `UploadKb = -1` on a torrent
whose `UpLimit` is already -1 schedules a (redundant) upload-limit change,
because Go's truncated division maps `-1 / 1024` to `0`, which differs from
`-1`; the claim predicted no scheduled change. -/
theorem unlimited_upload_counterexample :
    shouldRetag [(⟨"low", "full", some (-1)⟩, .ok true)]
        ⟨"h", "n", [], ["low"], true, -1, "", ""⟩ = .ok ⟨[], [], some (-1)⟩ ∧
    (⟨[], [], some (-1)⟩ : RetagInfo) ≠ ⟨[], [], none⟩ ∧
    Int.tdiv (-1) 1024 = 0 :=
  ⟨rfl, by decide, rfl⟩

/-- C8 amended: for a matching rule carrying an `uploadKb`, a limit change
is scheduled exactly when the torrent's `UpLimit`, truncated-divided by
1024, differs from the rule's value — so an already-unlimited torrent
(`UpLimit = -1`) is spuriously rescheduled by an `UploadKb = -1` rule; the
boundary conversion still hands `-1` (unlimited), not `-1024`, to
`SetUploadLimit`. -/
theorem upload_limit_amended (t : Torrent) (k : Int) (name : String) :
    (shouldRetag [(⟨name, "full", some k⟩, .ok true)] t).map
        (fun i => i.uploadKb)
      = .ok (if Int.tdiv t.upLimit 1024 ≠ k then some k else none) ∧
    uploadLimitBytes (-1) = -1 ∧
    Int.tdiv (-1) 1024 = 0 := by
  refine ⟨?_, rfl, rfl⟩
  by_cases hk : Int.tdiv t.upLimit 1024 = k <;>
    simp [shouldRetag, shouldRetagLoop, hk, Except.map]

/-- C9 counterexample: `Add` then `Remove` of a torrent does not restore an
index state that already contained the torrent's hash — starting from
`New([t])`, the round trip erases the entry. -/
theorem foi_roundtrip_counterexample :
    hashSet (tfmRemove (tfmAdd (tfmNew [⟨"h", "n", ["a"], [], true, 0, "", ""⟩])
        ⟨"h", "n", ["a"], [], true, 0, "", ""⟩)
        ⟨"h", "n", ["a"], [], true, 0, "", ""⟩) "a"
      ≠ hashSet (tfmNew [⟨"h", "n", ["a"], [], true, 0, "", ""⟩]) "a" := by
  decide

/-- C9 amended: on any index state with unique keys in which the torrent's
hash is not yet recorded for any of its files, `FOI.Add(t)` followed by
`FOI.Remove(t)` restores the path-to-hash-set mapping exactly. -/
theorem foi_roundtrip_amended (m : TFMap) (t : Torrent) (hm : NodupKeys m)
    (hh : ∀ f ∈ t.files, t.hash ∉ hashSet m f) :
    ∀ p, hashSet (tfmRemove (tfmAdd m t) t) p = hashSet m p := by
  intro p
  rw [hashSet_tfmRemove _ _ _ (nodupKeys_tfmAdd t hm), hashSet_tfmAdd]
  by_cases hp : p ∈ t.files
  · simp [hp, Finset.erase_insert (hh p hp)]
  · simp [hp]

/-- C9 amended witness: adding then removing a fresh torrent over an index
claiming `"a"` for another hash leaves the mapping at `"a"` unchanged. -/
theorem foi_roundtrip_amended_witness :
    (NodupKeys [("a", {"x"})] ∧
      ∀ f ∈ (⟨"h", "n", ["a"], [], true, 0, "", ""⟩ : Torrent).files,
        (⟨"h", "n", ["a"], [], true, 0, "", ""⟩ : Torrent).hash ∉
          hashSet [("a", {"x"})] f) ∧
    hashSet (tfmRemove (tfmAdd [("a", {"x"})] ⟨"h", "n", ["a"], [], true, 0, "", ""⟩)
        ⟨"h", "n", ["a"], [], true, 0, "", ""⟩) "a" = hashSet [("a", {"x"})] "a" :=
  ⟨⟨by decide, by decide⟩,
    foi_roundtrip_amended [("a", {"x"})] ⟨"h", "n", ["a"], [], true, 0, "", ""⟩
      (by decide) (by decide) "a"⟩

/-- C10: Hardlink-index stat-failure conservatism — if the stat oracle fails
on any file of a downloaded torrent (after path mapping), the torrent is
non-unique and has instances under the hardlink index, so phase 1 of clean
only makes it a candidate when it is not unregistered, and the phase-2
re-test leaves it alone. -/
theorem hli_stat_failure_conservative
    (stat : StatOracle) (pm : List (String × String)) (hfm : TFMap)
    (t : Torrent) (hd : t.downloaded = true)
    (hf : ∃ f ∈ t.files, stat (considerPathMapping pm f) = none) :
    hfmIsTorrentUnique stat pm hfm t = false ∧
    hfmNoInstances stat pm hfm t = false ∧
    (∀ (dd : Option Bool) (bypass : Bool) (reason : String) (tfm : TFMap),
      phase1Decision dd bypass (.ok false) (.ok (true, reason)) false tfm stat pm hfm t
        = .candidateHardlinked reason) ∧
    (∀ (dd : Option Bool) (tfm : TFMap) (b : Bool) (reason : String),
      phase2Decision dd tfm stat pm hfm b t reason = .leftAlone) := by
  obtain ⟨f, hfmem, hnone⟩ := hf
  have hu : hfmIsTorrentUnique stat pm hfm t = false := by
    simp only [hfmIsTorrentUnique, hd, Bool.not_true, Bool.false_eq_true,
      if_false]
    exact list_all_eq_false_of_mem hfmem
      (by simp [hfmCountLinks, linkInfoByPath, hnone])
  have hn : hfmNoInstances stat pm hfm t = false := by
    simp only [hfmNoInstances, hd, Bool.not_true, Bool.false_eq_true, if_false]
    exact list_all_eq_false_of_mem hfmem
      (by simp [hfmCountLinks, linkInfoByPath, hnone])
  refine ⟨hu, hn, fun dd bypass reason tfm => ?_, fun dd tfm b reason => ?_⟩
  · simp [phase1Decision, classifyUniqueness_eq, hu]
  · simp [phase2Decision, hn]

/-- C10 witness: a downloaded torrent with one unstattable file is
non-unique under the hardlink index. -/
theorem hli_stat_failure_conservative_witness :
    ((⟨"h", "n", ["a"], [], true, 0, "", ""⟩ : Torrent).downloaded = true ∧
      ∃ f ∈ (⟨"h", "n", ["a"], [], true, 0, "", ""⟩ : Torrent).files,
        (fun _ => (none : Option (String × Nat))) (considerPathMapping [] f)
          = none) ∧
    hfmIsTorrentUnique (fun _ => none) [] []
        ⟨"h", "n", ["a"], [], true, 0, "", ""⟩ = false ∧
    hfmNoInstances (fun _ => none) [] []
        ⟨"h", "n", ["a"], [], true, 0, "", ""⟩ = false :=
  ⟨⟨rfl, ⟨"a", by decide, rfl⟩⟩,
    (hli_stat_failure_conservative (fun _ => none) [] []
        ⟨"h", "n", ["a"], [], true, 0, "", ""⟩ rfl ⟨"a", by decide, rfl⟩).1,
    (hli_stat_failure_conservative (fun _ => none) [] []
        ⟨"h", "n", ["a"], [], true, 0, "", ""⟩ rfl ⟨"a", by decide, rfl⟩).2.1⟩
